import Mathlib

/-
Verification of the resumable archive-construction subsystem of
data-transfer-tool (src/data_transfer_tool/cli.py, function `create_tarball`,
lines 117-221).

Shallow embedding. The reconciliation model tracks regular-file members only
(relative paths such as "folder/sub/file"), as in the data model of the spec:
directory entries produced by tar are not separately tracked as archive
members.

The archive file is modelled at the level of gzip/tar SEGMENTS: a fresh build
produces a single-segment archive, and every resume appends one more segment
via `cat existing temp > new` (cli.py lines 204-212).  This matters because a
tar stream ends with an end-of-archive marker (two zero blocks), and default
GNU tar — `tar -tzf` as used by the tool's own reconciliation (line 169) and
`tar -xzvf` as used by its extraction (line 109), both without
`--ignore-zeros` — stops reading at the FIRST such marker.  The listable
table of contents of a cat-concatenated archive is therefore only its first
segment's members; entries in later segments are physically present but not
listed or extracted.  `listedToc` models this.

The file system is abstracted to the four paths the function touches (the
tarball, the ".temp" segment, the ".new" concatenation target and the sidecar
progress file), and every observable file-system operation of a run is
recorded in an event trace so that atomicity and locking properties can be
stated.
-/

namespace DataTransferTool

/-- A source tree: the basename of the source folder (cli.py line 131,
`os.path.basename(source_folder.rstrip("/"))`) and the list of regular-file
paths relative to the source root, as enumerated by `os.walk` (lines 175-179).
-/
structure SourceTree where
  basename : String
  files : List String
deriving DecidableEq, Repr

/-- Member path of a source file as it appears inside the archive: relative to
the PARENT of the source root, i.e. prefixed with the source folder basename.
cli.py line 178: `rel_path = os.path.relpath(full_path, source_parent)` where
`full_path = os.path.join(root, file)` under `source_folder`. -/
def memberPath (t : SourceTree) (f : String) : String :=
  t.basename ++ "/" ++ f

/-- The set `all_files` built at cli.py lines 174-179: every source file, as a
parent-relative member path. -/
def allFiles (t : SourceTree) : List String :=
  t.files.map (memberPath t)

/-- Environment of a run: per-member-path readability of source files, whether
the archive target is writable (disk space / permissions), and whether the
`cat` concatenation at line 208 succeeds. -/
structure Env where
  readable : String → Bool
  archiveWritable : Bool
  concatOk : Bool

/-- Return-code model of the `tar -czvf` subprocess invocations at cli.py
lines 143-157 and 189-203: GNU tar exits 0 iff the archive could be written
and every named file was readable; any unreadable or disappeared source file
makes the exit status nonzero. -/
def tarOk (env : Env) (work : List String) : Bool :=
  env.archiveWritable && work.all env.readable

/-- The entries the tar subprocess actually writes into (and verbosely lists
for) the archive: tar skips files it cannot read but archives the rest. -/
def tarOutput (env : Env) (work : List String) : List String :=
  work.filter env.readable

/-- The four file-system paths `create_tarball` touches: `tarball_path`,
`tarball_path + ".temp"` (line 188), `tarball_path + ".new"` (line 205) and
the sidecar progress file (lines 133-134). -/
inductive PathId
  | tarball
  | tempSeg
  | newTarball
  | sidecar
deriving DecidableEq, Repr

/-- Observable file-system operations of a run.  `writeFile` is a PLAIN
in-place truncating write (Python `open(path, "w")`), distinct from
`replaceFile` which is the atomic `os.replace`.  `acquireLock` is expressible
so that locking claims can be stated, though the code never performs it. -/
inductive FsEvent
  | appendEntry (archive : PathId) (member : String)
  | writeFile (p : PathId) (lines : List String) (terminator : String)
  | listToc (p : PathId)
  | concatFiles (src1 src2 dst : PathId)
  | replaceFile (src dst : PathId)
  | removeFile (p : PathId)
  | acquireLock (p : PathId)
deriving DecidableEq, Repr

/-- State of the two durable artifacts.  `archive` is the PHYSICAL content of
the file at `tarball_path` (`none` = no file; `some segs` = the list of
concatenated gzip/tar segments, each segment the list of file members written
into that tar stream, in order).  A fresh build makes one segment; each
resume's `cat` appends one more.  `progress` is the sidecar progress file
(`some (paths, terminator)` = the listed member paths plus the final
terminator line). -/
structure FsState where
  archive : Option (List (List String))
  progress : Option (List String × String)
deriving DecidableEq, Repr

/-- What `tar -tzf tarball_path` actually lists (cli.py lines 169-171), and
equally what `tar -xzvf` extracts (line 109): default GNU tar reads the
archive only up to the first end-of-archive marker, i.e. the FIRST segment;
members of later cat-appended segments are not listed.  This is the archive's
effective table of contents. -/
def listedToc (segs : List (List String)) : List String :=
  segs.headD []

/-- Outcome classification of one `create_tarball` invocation. -/
inductive RunResult
  | createdFresh
  | nothingToDo
  | resumed
  | fatal
deriving DecidableEq, Repr

/-- Result of one run: classification, final durable state, and the trace of
file-system operations performed, in order. -/
structure RunOutcome where
  result : RunResult
  state : FsState
  trace : List FsEvent
deriving DecidableEq, Repr

/-- `missing_files = all_files - archived_files` (cli.py line 181): the
Python set difference, as the source files not present in the listing the
`tar -tzf` subprocess produced. -/
def missingFiles (t : SourceTree) (toc : List String) : List String :=
  (allFiles t).filter (fun p => !(decide (p ∈ toc)))

/-- Code-point lexicographic comparison of character lists, the order Python
`sorted` uses on strings. -/
def charsLe : List Char → List Char → Bool
  | [], _ => true
  | _ :: _, [] => false
  | a :: as, b :: bs =>
    Nat.blt a.toNat b.toNat || (a.toNat == b.toNat && charsLe as bs)

/-- Python string comparison `a <= b`. -/
def lineLe (a b : String) : Bool :=
  charsLe a.data b.data

/-- Insertion into a `lineLe`-sorted list of lines. -/
def insertLine (x : String) : List String → List String
  | [] => [x]
  | y :: ys => if lineLe x y then x :: y :: ys else y :: insertLine x ys

/-- Model of Python `sorted` on the progress lines (cli.py line 218). -/
def sortLines : List String → List String
  | [] => []
  | x :: xs => insertLine x (sortLines xs)

/-- Fresh-build branch of `create_tarball` (cli.py lines 136-164): no archive
exists, so run `tar -czvf tarball_path -C source_parent source_basename` over
the whole tree, producing a SINGLE-segment archive, then (only after the
subprocess has finished successfully) write the sidecar progress file in one
plain write, ending with the line "Complete".  A nonzero tar exit status
aborts the run (`sys.exit(1)`, line 157) before any progress write; the
partially written archive (the entries tar managed to append) is left on
disk. -/
def freshRun (env : Env) (t : SourceTree) (s : FsState) : RunOutcome :=
  let work := allFiles t
  let committed := if env.archiveWritable then tarOutput env work else []
  let ev := committed.map (FsEvent.appendEntry PathId.tarball)
  if tarOk env work then
    { result := RunResult.createdFresh
      state := { archive := some [committed]
                 progress := some (committed, "Complete") }
      trace := ev ++ [FsEvent.writeFile PathId.sidecar committed "Complete"] }
  else
    { result := RunResult.fatal
      state := { archive := some [committed], progress := s.progress }
      trace := ev }

/-- Resume branch of `create_tarball` (cli.py lines 165-221): list the
existing archive with `tar -tzf` (lines 169-171) — which yields only the
FIRST segment's members, `listedToc` — and compute `missing = all_files -
archived` (lines 174-181); if nothing is missing, report and stop without
touching anything (line 183).  Otherwise write the missing files to the
".temp" segment (lines 188-203; nonzero tar status aborts, line 203),
concatenate tarball+segment into the ".new" file with `cat` (lines 204-211;
failure aborts with the original archive and sidecar untouched), atomically
rename ".new" over the tarball (`os.replace`, line 212) — the physical result
is the old segments plus one new segment — delete the temp segment, and
finally rewrite the sidecar with the sorted union of the listed and the newly
appended members plus the terminator "Resumed and complete" (lines 215-220).
-/
def resumeRun (env : Env) (t : SourceTree) (segs : List (List String))
    (s : FsState) : RunOutcome :=
  let toc := listedToc segs
  let missing := missingFiles t toc
  if missing = [] then
    { result := RunResult.nothingToDo
      state := s
      trace := [FsEvent.listToc PathId.tarball] }
  else
    let archivedTemp := if env.archiveWritable then tarOutput env missing else []
    let ev := FsEvent.listToc PathId.tarball ::
      archivedTemp.map (FsEvent.appendEntry PathId.tempSeg)
    if tarOk env missing then
      if env.concatOk then
        let progLines := sortLines ((toc ++ archivedTemp).dedup)
        { result := RunResult.resumed
          state := { archive := some (segs ++ [archivedTemp])
                     progress := some (progLines, "Resumed and complete") }
          trace := ev ++
            [FsEvent.concatFiles PathId.tarball PathId.tempSeg PathId.newTarball,
             FsEvent.replaceFile PathId.newTarball PathId.tarball,
             FsEvent.removeFile PathId.tempSeg,
             FsEvent.writeFile PathId.sidecar progLines "Resumed and complete"] }
      else
        { result := RunResult.fatal
          state := s
          trace := ev ++
            [FsEvent.concatFiles PathId.tarball PathId.tempSeg PathId.newTarball] }
    else
      { result := RunResult.fatal
        state := s
        trace := ev }

/-- `create_tarball(source_folder, tarball_path)` (cli.py lines 117-221):
dispatch on `os.path.exists(tarball_path)` (line 136). -/
def create_tarball (env : Env) (t : SourceTree) (s : FsState) : RunOutcome :=
  match s.archive with
  | none => freshRun env t s
  | some segs => resumeRun env t segs s

/-- The member paths appended to some archive file during a run, in order. -/
def appendedMembers (tr : List FsEvent) : List String :=
  tr.filterMap fun e =>
    match e with
    | FsEvent.appendEntry _ m => some m
    | _ => none

/-- Recognizes a plain in-place write of the sidecar progress file. -/
def isSidecarWrite : FsEvent → Bool
  | FsEvent.writeFile PathId.sidecar _ _ => true
  | _ => false

/-- Recognizes an append of one entry to some archive file. -/
def isAppendEvent : FsEvent → Bool
  | FsEvent.appendEntry _ _ => true
  | _ => false

/-- Recognizes a lock acquisition. -/
def isLockEvent : FsEvent → Bool
  | FsEvent.acquireLock _ => true
  | _ => false

/-- Scan of a trace checking per-entry progress persistence: `pending = true`
means an entry has been appended whose commit has not yet been followed by a
sidecar write.  The scan fails if a second append happens while one is
pending, or if the trace ends with an append still pending. -/
def persistCheck : Bool → List FsEvent → Bool
  | pending, [] => !pending
  | pending, e :: rest =>
    if isAppendEvent e then !pending && persistCheck true rest
    else if isSidecarWrite e then persistCheck false rest
    else persistCheck pending rest

/-- A trace durably persists progress after every single append iff the
per-entry scan succeeds. -/
def progressPerEntry (tr : List FsEvent) : Bool :=
  persistCheck false tr

lemma mem_insertLine {x y : String} {l : List String} :
    x ∈ insertLine y l ↔ x = y ∨ x ∈ l := by
  induction l with
  | nil => simp [insertLine]
  | cons z zs ih =>
    by_cases h : lineLe y z = true
    · simp [insertLine, h]
    · simp only [insertLine, if_neg h, List.mem_cons, ih]
      tauto

lemma mem_sortLines {x : String} {l : List String} :
    x ∈ sortLines l ↔ x ∈ l := by
  induction l with
  | nil => simp [sortLines]
  | cons y ys ih => simp [sortLines, mem_insertLine, ih]

lemma tarOutput_of_all_readable {env : Env} {l : List String}
    (h : l.all env.readable = true) : tarOutput env l = l := by
  unfold tarOutput
  exact List.filter_eq_self.mpr (List.all_eq_true.mp h)

lemma mem_missingFiles {t : SourceTree} {toc : List String} {p : String} :
    p ∈ missingFiles t toc ↔ p ∈ allFiles t ∧ p ∉ toc := by
  simp [missingFiles, List.mem_filter]

lemma missingFiles_eq_nil_iff {t : SourceTree} {toc : List String} :
    missingFiles t toc = [] ↔ ∀ p ∈ allFiles t, p ∈ toc := by
  unfold missingFiles
  rw [List.filter_eq_nil_iff]
  constructor
  · intro h p hp
    have := h p hp
    simpa using this
  · intro h p hp
    simpa using h p hp

lemma missingFiles_all_readable {env : Env} {t : SourceTree} {toc : List String}
    (h : (allFiles t).all env.readable = true) :
    (missingFiles t toc).all env.readable = true := by
  rw [List.all_eq_true] at h ⊢
  intro p hp
  exact h p (mem_missingFiles.mp hp).1

lemma tarOk_missing {env : Env} {t : SourceTree} {toc : List String}
    (hw : env.archiveWritable = true) (hr : (allFiles t).all env.readable = true) :
    tarOk env (missingFiles t toc) = true := by
  simp [tarOk, hw, missingFiles_all_readable hr]

lemma filter_sidecar_appends (l : List String) (a : PathId) :
    (l.map (FsEvent.appendEntry a)).filter isSidecarWrite = [] := by
  induction l with
  | nil => rfl
  | cons x xs ih => simp [isSidecarWrite, ih]

lemma any_lock_appends (l : List String) (a : PathId) :
    (l.map (FsEvent.appendEntry a)).any isLockEvent = false := by
  induction l with
  | nil => rfl
  | cons x xs ih => simp [isLockEvent, ih]

/-- C1 (code bug): resumability fails on the code.  On the spec's own
scenario — three source files, the builder killed after `data/a.txt` and
`data/b.txt` were committed as a complete first segment — the resumed run
cat-appends a second segment containing `data/c.txt`, but the final archive's
effective table of contents (what the tool's own `tar -tzf` lists and its
`tar -xzvf` extracts, both stopping at the first end-of-archive marker) still
contains only the two pre-kill members: `data/c.txt` is a source file yet is
absent from the listed table of contents, so the final archive is NOT exactly
the N source files. -/
theorem C1_resume_toc_incomplete :
    (create_tarball ⟨fun _ => true, true, true⟩
      ⟨"data", ["a.txt", "b.txt", "c.txt"]⟩
      ⟨some [["data/a.txt", "data/b.txt"]], none⟩).result = RunResult.resumed ∧
    (create_tarball ⟨fun _ => true, true, true⟩
      ⟨"data", ["a.txt", "b.txt", "c.txt"]⟩
      ⟨some [["data/a.txt", "data/b.txt"]], none⟩).state.archive =
      some [["data/a.txt", "data/b.txt"], ["data/c.txt"]] ∧
    "data/c.txt" ∈ allFiles ⟨"data", ["a.txt", "b.txt", "c.txt"]⟩ ∧
    "data/c.txt" ∉ listedToc [["data/a.txt", "data/b.txt"], ["data/c.txt"]] := by
  decide

/-- C2: Resume reconciliation.  When an archive exists, the work list is
`missingFiles` computed from the archive's own table of contents as listed by
`tar -tzf` (the sidecar content plays no role in the decision); when it is
empty the run reports nothing to do and terminates successfully with the
archive and sidecar untouched. -/
theorem C2_resume_reconciliation (env : Env) (t : SourceTree)
    (segs : List (List String)) (pr : Option (List String × String))
    (hm : missingFiles t (listedToc segs) = []) :
    (create_tarball env t ⟨some segs, pr⟩).result = RunResult.nothingToDo ∧
    (create_tarball env t ⟨some segs, pr⟩).state = ⟨some segs, pr⟩ ∧
    appendedMembers (create_tarball env t ⟨some segs, pr⟩).trace = [] ∧
    ∀ pr', (create_tarball env t ⟨some segs, pr'⟩).result = RunResult.nothingToDo := by
  refine ⟨?_, ?_, ?_, fun pr' => ?_⟩ <;>
    simp [create_tarball, resumeRun, hm, appendedMembers]

/-- Witness for C2: a fully archived one-file tree. -/
theorem C2_resume_reconciliation_witness :
    (create_tarball ⟨fun _ => true, true, true⟩ ⟨"data", ["a.txt"]⟩
        ⟨some [["data/a.txt"]], none⟩).result = RunResult.nothingToDo ∧
    (create_tarball ⟨fun _ => true, true, true⟩ ⟨"data", ["a.txt"]⟩
        ⟨some [["data/a.txt"]], none⟩).state = ⟨some [["data/a.txt"]], none⟩ :=
  ⟨(C2_resume_reconciliation ⟨fun _ => true, true, true⟩ ⟨"data", ["a.txt"]⟩
      [["data/a.txt"]] none (by decide)).1,
   (C2_resume_reconciliation ⟨fun _ => true, true, true⟩ ⟨"data", ["a.txt"]⟩
      [["data/a.txt"]] none (by decide)).2.1⟩

/-- C3: Idempotence.  Running the build twice in a row with no source change
makes the second run do zero work (no entries appended, result "nothing to
do") and leaves the durable state, in particular the archive's table of
contents, exactly as after the first run.  A fresh build involves no
concatenation: its complete single-segment archive lists all source files, so
the second run's set difference is empty. -/
theorem C3_idempotence (env : Env) (t : SourceTree)
    (hw : env.archiveWritable = true)
    (hr : (allFiles t).all env.readable = true) :
    (create_tarball env t (create_tarball env t ⟨none, none⟩).state).result =
      RunResult.nothingToDo ∧
    (create_tarball env t (create_tarball env t ⟨none, none⟩).state).state =
      (create_tarball env t ⟨none, none⟩).state ∧
    appendedMembers
      (create_tarball env t (create_tarball env t ⟨none, none⟩).state).trace = [] := by
  have h1 : (create_tarball env t ⟨none, none⟩).state =
      ⟨some [allFiles t], some (allFiles t, "Complete")⟩ := by
    simp [create_tarball, freshRun, tarOk, hw, hr, tarOutput_of_all_readable hr]
  have hm : missingFiles t (allFiles t) = [] :=
    missingFiles_eq_nil_iff.mpr (fun p hp => hp)
  rw [h1]
  refine ⟨?_, ?_, ?_⟩ <;>
    simp [create_tarball, resumeRun, listedToc, hm, appendedMembers]

/-- Witness for C3 on a concrete two-file tree. -/
theorem C3_idempotence_witness :
    (create_tarball ⟨fun _ => true, true, true⟩ ⟨"data", ["a.txt", "b.txt"]⟩
        (create_tarball ⟨fun _ => true, true, true⟩ ⟨"data", ["a.txt", "b.txt"]⟩
          ⟨none, none⟩).state).result = RunResult.nothingToDo ∧
    (create_tarball ⟨fun _ => true, true, true⟩ ⟨"data", ["a.txt", "b.txt"]⟩
        (create_tarball ⟨fun _ => true, true, true⟩ ⟨"data", ["a.txt", "b.txt"]⟩
          ⟨none, none⟩).state).state =
      (create_tarball ⟨fun _ => true, true, true⟩ ⟨"data", ["a.txt", "b.txt"]⟩
        ⟨none, none⟩).state :=
  ⟨(C3_idempotence ⟨fun _ => true, true, true⟩ ⟨"data", ["a.txt", "b.txt"]⟩ rfl rfl).1,
   (C3_idempotence ⟨fun _ => true, true, true⟩ ⟨"data", ["a.txt", "b.txt"]⟩ rfl rfl).2.1⟩

/-- C4: Append-only monotonicity.  Every member listed in an existing
archive's table of contents is still listed after any resumed run, whatever
the environment and whatever the current source tree (in particular a member
whose source file has been deleted is never pruned): a resume leaves the
first segment — hence the listing — unchanged, or only appends a new segment
after it. -/
theorem C4_append_only (env : Env) (t : SourceTree) (segs : List (List String))
    (pr : Option (List String × String)) (p : String)
    (hp : p ∈ listedToc segs) :
    ∃ segs', (create_tarball env t ⟨some segs, pr⟩).state.archive = some segs' ∧
      p ∈ listedToc segs' := by
  by_cases hm : missingFiles t (listedToc segs) = []
  · exact ⟨segs, by simp [create_tarball, resumeRun, hm], hp⟩
  · by_cases ht : tarOk env (missingFiles t (listedToc segs)) = true
    · by_cases hcOk : env.concatOk = true
      · refine ⟨segs ++ [if env.archiveWritable then
            tarOutput env (missingFiles t (listedToc segs)) else []],
          by simp [create_tarball, resumeRun, hm, ht, hcOk], ?_⟩
        cases segs with
        | nil => simp [listedToc] at hp
        | cons s0 rest => simpa [listedToc] using hp
      · exact ⟨segs, by simp [create_tarball, resumeRun, hm, ht, hcOk], hp⟩
    · exact ⟨segs, by simp [create_tarball, resumeRun, hm, ht], hp⟩

/-- Witness for C4: the archive lists a member whose source file no longer
exists in the (now different) source tree; it survives the resumed run. -/
theorem C4_append_only_witness :
    ∃ segs', (create_tarball ⟨fun _ => true, true, true⟩ ⟨"data", ["a.txt"]⟩
        ⟨some [["data/gone.txt"]], none⟩).state.archive = some segs' ∧
      "data/gone.txt" ∈ listedToc segs' :=
  C4_append_only ⟨fun _ => true, true, true⟩ ⟨"data", ["a.txt"]⟩
    [["data/gone.txt"]] none "data/gone.txt" (by decide)

/-- C5 (code bug): per-entry progress persistence and soundness both fail on
the code.  First, the progress record is written only once, at the end of a
run, never after each append: a fresh build of a two-file tree appends both
entries before any sidecar write, so the per-entry persistence scan fails on
its trace.  Second, the record written by a resumed run is unsound: resuming
a one-member archive over a two-file tree appends `data/b.txt` in a second
cat-concatenated segment and writes a record listing it, yet the final
archive's effective table of contents (default `tar -tzf`, which stops at the
first end-of-archive marker) still contains only `data/a.txt` — the record
claims a member that is not retrievable from the archive. -/
theorem C5_progress_record_unsound :
    progressPerEntry (create_tarball ⟨fun _ => true, true, true⟩
      ⟨"data", ["a.txt", "b.txt"]⟩ ⟨none, none⟩).trace = false ∧
    (create_tarball ⟨fun _ => true, true, true⟩ ⟨"data", ["a.txt", "b.txt"]⟩
      ⟨some [["data/a.txt"]], none⟩).result = RunResult.resumed ∧
    (create_tarball ⟨fun _ => true, true, true⟩ ⟨"data", ["a.txt", "b.txt"]⟩
      ⟨some [["data/a.txt"]], none⟩).state.progress =
      some (["data/a.txt", "data/b.txt"], "Resumed and complete") ∧
    (create_tarball ⟨fun _ => true, true, true⟩ ⟨"data", ["a.txt", "b.txt"]⟩
      ⟨some [["data/a.txt"]], none⟩).state.archive =
      some [["data/a.txt"], ["data/b.txt"]] ∧
    "data/b.txt" ∉ listedToc [["data/a.txt"], ["data/b.txt"]] := by
  decide

/-- C6 (counterexample): the claim that a sidecar write is never a plain
in-place overwrite fails on the code: a successful fresh build performs a
plain truncating write (Python `open(progress_file, "w")`) of the sidecar. -/
theorem C6_counterexample :
    ((create_tarball ⟨fun _ => true, true, true⟩ ⟨"data", ["a.txt"]⟩
      ⟨none, none⟩).trace.all (fun e => !(isSidecarWrite e))) = false := by decide

/-- C6 (amended): every update of the sidecar progress file is a single plain
in-place truncating overwrite — never write-temp-then-rename (no rename ever
targets the sidecar) — and the written content always ends with one of the
two terminator lines. -/
theorem C6_sidecar_plain_overwrite (env : Env) (t : SourceTree) (s : FsState) :
    (∀ src, FsEvent.replaceFile src PathId.sidecar ∉ (create_tarball env t s).trace) ∧
    (∀ lines term,
      FsEvent.writeFile PathId.sidecar lines term ∈ (create_tarball env t s).trace →
      term = "Complete" ∨ term = "Resumed and complete") := by
  obtain ⟨arch, pr⟩ := s
  cases arch with
  | none =>
    by_cases ht : tarOk env (allFiles t) = true <;>
      refine ⟨fun src => ?_, fun lines term hmem => ?_⟩ <;>
        simp [create_tarball, freshRun, ht] at *
    all_goals tauto
  | some segs =>
    by_cases hm : missingFiles t (listedToc segs) = [] <;>
      by_cases ht : tarOk env (missingFiles t (listedToc segs)) = true <;>
        by_cases hc : env.concatOk = true <;>
          refine ⟨fun src => ?_, fun lines term hmem => ?_⟩ <;>
            simp [create_tarball, resumeRun, hm, ht, hc] at *
    all_goals tauto

/-- Witness for the amended C6: the concrete fresh build writes the sidecar
with terminator "Complete", and no rename onto the sidecar appears. -/
theorem C6_sidecar_plain_overwrite_witness :
    (FsEvent.replaceFile PathId.newTarball PathId.sidecar ∉
      (create_tarball ⟨fun _ => true, true, true⟩ ⟨"data", ["a.txt"]⟩
        ⟨none, none⟩).trace) ∧
    ("Complete" = "Complete" ∨ "Complete" = "Resumed and complete") :=
  ⟨(C6_sidecar_plain_overwrite ⟨fun _ => true, true, true⟩ ⟨"data", ["a.txt"]⟩
      ⟨none, none⟩).1 PathId.newTarball,
   (C6_sidecar_plain_overwrite ⟨fun _ => true, true, true⟩ ⟨"data", ["a.txt"]⟩
      ⟨none, none⟩).2 ["data/a.txt"] "Complete" (by decide)⟩

/-- C7: Atomic archive replacement on resume.  A resumed run never writes or
appends to the original archive path in place; the only way the archive path
is ever replaced is by renaming the ".new" file produced by the
concatenation step over it; and if the concatenation step fails the archive
and the sidecar are left exactly in their previous state. -/
theorem C7_atomic_archive_replacement (env : Env) (t : SourceTree)
    (segs : List (List String)) (pr : Option (List String × String)) :
    (∀ lines term, FsEvent.writeFile PathId.tarball lines term ∉
      (create_tarball env t ⟨some segs, pr⟩).trace) ∧
    (∀ m, FsEvent.appendEntry PathId.tarball m ∉
      (create_tarball env t ⟨some segs, pr⟩).trace) ∧
    (∀ src dst, FsEvent.replaceFile src dst ∈
        (create_tarball env t ⟨some segs, pr⟩).trace →
      src = PathId.newTarball ∧ dst = PathId.tarball ∧
      FsEvent.concatFiles PathId.tarball PathId.tempSeg PathId.newTarball ∈
        (create_tarball env t ⟨some segs, pr⟩).trace) ∧
    (env.concatOk = false →
      (create_tarball env t ⟨some segs, pr⟩).state = ⟨some segs, pr⟩) := by
  refine ⟨fun lines term => ?_, fun m => ?_, fun src dst hmem => ?_, fun hcf => ?_⟩ <;>
    by_cases hm : missingFiles t (listedToc segs) = [] <;>
      by_cases ht : tarOk env (missingFiles t (listedToc segs)) = true <;>
        by_cases hc : env.concatOk = true <;>
          simp_all [create_tarball, resumeRun]

/-- Witness for C7: a successful resume renames ".new" over the archive after
concatenating, and with a failing concatenation the state is untouched. -/
theorem C7_atomic_archive_replacement_witness :
    (PathId.newTarball = PathId.newTarball ∧ PathId.tarball = PathId.tarball ∧
      FsEvent.concatFiles PathId.tarball PathId.tempSeg PathId.newTarball ∈
        (create_tarball ⟨fun _ => true, true, true⟩ ⟨"data", ["a.txt", "b.txt"]⟩
          ⟨some [["data/a.txt"]], none⟩).trace) ∧
    (create_tarball ⟨fun _ => true, true, false⟩ ⟨"data", ["a.txt", "b.txt"]⟩
      ⟨some [["data/a.txt"]], none⟩).state = ⟨some [["data/a.txt"]], none⟩ :=
  ⟨(C7_atomic_archive_replacement ⟨fun _ => true, true, true⟩
      ⟨"data", ["a.txt", "b.txt"]⟩ [["data/a.txt"]] none).2.2.1
      PathId.newTarball PathId.tarball (by decide),
   (C7_atomic_archive_replacement ⟨fun _ => true, true, false⟩
      ⟨"data", ["a.txt", "b.txt"]⟩ [["data/a.txt"]] none).2.2.2 rfl⟩

/-- C8 (counterexample): the claim that the builder takes an exclusive lock
on the archive path fails on the code: a complete successful build runs with
no lock acquisition anywhere in its operation trace. -/
theorem C8_counterexample :
    (create_tarball ⟨fun _ => true, true, true⟩ ⟨"data", ["a.txt"]⟩
      ⟨none, none⟩).result = RunResult.createdFresh ∧
    ((create_tarball ⟨fun _ => true, true, true⟩ ⟨"data", ["a.txt"]⟩
      ⟨none, none⟩).trace.any isLockEvent) = false := by decide

/-- C8 (amended): the builder acquires no lock of any kind during any run, so
a concurrent second run against the same archive path is neither detected nor
rejected. -/
theorem C8_no_lock_taken (env : Env) (t : SourceTree) (s : FsState) :
    (create_tarball env t s).trace.any isLockEvent = false := by
  obtain ⟨arch, pr⟩ := s
  cases arch with
  | none =>
    by_cases ht : tarOk env (allFiles t) = true <;>
      simp [create_tarball, freshRun, ht, any_lock_appends, isLockEvent]
  | some segs =>
    by_cases hm : missingFiles t (listedToc segs) = [] <;>
      by_cases ht : tarOk env (missingFiles t (listedToc segs)) = true <;>
        by_cases hc : env.concatOk = true <;>
          simp [create_tarball, resumeRun, hm, ht, hc, any_lock_appends, isLockEvent]

/-- C9 (counterexample): the claim that a per-entry source failure is merely
skipped with a warning while the run continues fails on the code: with a
writable archive and a single unreadable source file, the tar subprocess
exits nonzero and `create_tarball` aborts the whole run (`sys.exit(1)`)
instead of succeeding; the run ends fatal. -/
theorem C9_counterexample :
    (create_tarball ⟨fun p => !(p == "data/b.txt"), true, true⟩
      ⟨"data", ["a.txt", "b.txt"]⟩ ⟨none, none⟩).result = RunResult.fatal := by decide

/-- C9 (amended): any failing tar invocation — whether the cause is a
per-entry read failure or an archive-I/O failure, which the code cannot tell
apart since it only checks the subprocess return code — aborts the run as
fatal; no progress record is written and, on resume, the durable state is
left untouched. -/
theorem C9_tar_failure_fatal (env : Env) (t : SourceTree) :
    (∀ pr, tarOk env (allFiles t) = false →
      (create_tarball env t ⟨none, pr⟩).result = RunResult.fatal ∧
      (create_tarball env t ⟨none, pr⟩).state.progress = pr) ∧
    (∀ segs pr, missingFiles t (listedToc segs) ≠ [] →
      tarOk env (missingFiles t (listedToc segs)) = false →
      (create_tarball env t ⟨some segs, pr⟩).result = RunResult.fatal ∧
      (create_tarball env t ⟨some segs, pr⟩).state = ⟨some segs, pr⟩) := by
  constructor
  · intro pr ht
    constructor <;> simp [create_tarball, freshRun, ht]
  · intro segs pr hm ht
    constructor <;> simp [create_tarball, resumeRun, hm, ht]

/-- Witness for the amended C9: one unreadable file aborts both a fresh build
and a resume, leaving the progress record unwritten. -/
theorem C9_tar_failure_fatal_witness :
    ((create_tarball ⟨fun p => !(p == "data/b.txt"), true, true⟩
        ⟨"data", ["a.txt", "b.txt"]⟩ ⟨none, none⟩).result = RunResult.fatal ∧
      (create_tarball ⟨fun p => !(p == "data/b.txt"), true, true⟩
        ⟨"data", ["a.txt", "b.txt"]⟩ ⟨none, none⟩).state.progress = none) ∧
    ((create_tarball ⟨fun p => !(p == "data/b.txt"), true, true⟩
        ⟨"data", ["a.txt", "b.txt"]⟩ ⟨some [["data/a.txt"]], none⟩).result =
        RunResult.fatal ∧
      (create_tarball ⟨fun p => !(p == "data/b.txt"), true, true⟩
        ⟨"data", ["a.txt", "b.txt"]⟩ ⟨some [["data/a.txt"]], none⟩).state =
        ⟨some [["data/a.txt"]], none⟩) :=
  ⟨(C9_tar_failure_fatal ⟨fun p => !(p == "data/b.txt"), true, true⟩
      ⟨"data", ["a.txt", "b.txt"]⟩).1 none (by decide),
   (C9_tar_failure_fatal ⟨fun p => !(p == "data/b.txt"), true, true⟩
      ⟨"data", ["a.txt", "b.txt"]⟩).2 [["data/a.txt"]] none (by decide) (by decide)⟩

/-- C10: every member path the builder commits, records in the progress file
and reconciles is relative to the PARENT of the source root, i.e. begins with
the source folder basename followed by "/"; in particular the resume-time
set difference compares such parent-relative paths on both sides. -/
theorem C10_parent_relative_paths (env : Env) (t : SourceTree)
    (hw : env.archiveWritable = true)
    (hr : (allFiles t).all env.readable = true) :
    (create_tarball env t ⟨none, none⟩).state.archive = some [allFiles t] ∧
    (create_tarball env t ⟨none, none⟩).state.progress =
      some (allFiles t, "Complete") ∧
    (∀ p ∈ allFiles t, ∃ q, q ∈ t.files ∧ p = t.basename ++ "/" ++ q) ∧
    (∀ toc p, p ∈ missingFiles t toc →
      ∃ q, q ∈ t.files ∧ p = t.basename ++ "/" ++ q) := by
  have hstruct : ∀ p ∈ allFiles t, ∃ q, q ∈ t.files ∧ p = t.basename ++ "/" ++ q := by
    intro p hp
    obtain ⟨q, hq, rfl⟩ := List.mem_map.mp hp
    exact ⟨q, hq, rfl⟩
  refine ⟨?_, ?_, hstruct, fun toc p hp => hstruct p (mem_missingFiles.mp hp).1⟩ <;>
    simp [create_tarball, freshRun, tarOk, hw, hr, tarOutput_of_all_readable hr]

/-- Witness for C10 on a concrete tree with a nested file. -/
theorem C10_parent_relative_paths_witness :
    (create_tarball ⟨fun _ => true, true, true⟩ ⟨"data", ["sub/a.txt"]⟩
      ⟨none, none⟩).state.archive =
      some [allFiles ⟨"data", ["sub/a.txt"]⟩] ∧
    ∃ q, q ∈ (⟨"data", ["sub/a.txt"]⟩ : SourceTree).files ∧
      "data/sub/a.txt" = "data" ++ "/" ++ q :=
  ⟨(C10_parent_relative_paths ⟨fun _ => true, true, true⟩ ⟨"data", ["sub/a.txt"]⟩
      rfl rfl).1,
   (C10_parent_relative_paths ⟨fun _ => true, true, true⟩ ⟨"data", ["sub/a.txt"]⟩
      rfl rfl).2.2.1 "data/sub/a.txt" (by decide)⟩

end DataTransferTool
